import Mathlib

/-!
Shallow embedding of the umrahops core subsystems:
  * the tamper-evident audit ledger (`src/server/storage.ts`:
    `SQLiteStorage.createAuditLog`, `SQLiteStorage.verifyAuditChain`,
    `SQLiteStorage.getLatestAuditLog`),
  * the risk-assessment pipeline (`src/server/services/aiService.ts`:
    `AIService.assessBatch`, `assessRisk`, `getFromCache`, `generateFingerprint`,
    `parseOpenAIResponse`, `mockAssessment`),
  * the risk-scan route handler and its helpers (`src/server/db.ts`:
    the `/api/groups/:groupId/risk-scan` handler, `calculateAgeRange`,
    `countMissingFields`).

Machine integers of the source are JavaScript numbers used only as
non-negative integers (scores, counts, millisecond timestamps); they are
modelled as `Nat` (and `Int` where a subtraction may go negative).
SHA-256 is modelled as an ideal (collision-free) hash: a free constructor
applied to the hashed text, which is injective by construction.
-/

namespace UmrahOps

/-- Model of a SHA-256 hex digest value as it flows through the audit chain.
`crypto.createHash('sha256')` is treated as an ideal hash: each distinct use
site is a distinct injective constructor, so two digests are equal exactly
when their preimages are.  The string `'GENESIS'` sentinel and arbitrary
(attacker-written) column contents get their own constructors. -/
inductive HashVal where
  /-- The fixed `'GENESIS'` sentinel used as `prevHash` of the first entry. -/
  | genesis : HashVal
  /-- `sha256(JSON.stringify(payload))` (storage.ts line 151). -/
  | payloadH (payloadStr : String) : HashVal
  /-- `sha256(prevHash + ':' + payloadHash + ':' + timestamp)` (storage.ts lines 155-156). -/
  | chainH (prevHash : HashVal) (payloadHash : HashVal) (timestamp : String) : HashVal
  /-- An arbitrary string written into a hash column by something other than
  `createAuditLog` (used to model tampering). -/
  | other (s : String) : HashVal
deriving DecidableEq, Repr

/-- One row of the `audit_logs` table (shared/schema.ts): exactly the
declared columns `id, entity_type, entity_id, action, payload, prev_hash,
hash, created_at`, with the hash-typed columns carried as `HashVal` and the
opaque JSON `payload` carried as its serialization.  The table declares
**no** `payload_hash` column: the `payloadHash` that `createAuditLog`
computes is dropped at the insert (drizzle builds the insert and the
returned row from the declared columns only), so it is not a field of the
persisted row. -/
structure AuditEntry where
  id : String
  entityType : String
  entityId : String
  action : String
  /-- `JSON.stringify(insertLog.payload || {})`, kept in serialized form. -/
  payload : String
  prevHash : HashVal
  hash : HashVal
  /-- The stored `created_at` column, as a millisecond timestamp. -/
  createdAt : Nat
deriving DecidableEq, Repr

/-- The arguments of one `createAuditLog` call together with the ambient
state the source reads implicitly: `id` models the row id the database
generates, `createdAtArg` models the caller-supplied `insertLog.createdAt`
(`undefined` when the caller omits it), and `now` models the wall clock at
the moment `createAuditLog` runs (`new Date()` inside the function). -/
structure AppendReq where
  id : String
  entityType : String
  entityId : String
  action : String
  /-- The payload, already serialized (`JSON.stringify(insertLog.payload || {})`). -/
  payload : String
  createdAtArg : Option Nat
  now : Nat
deriving DecidableEq, Repr

/-- Model of `Date.prototype.toISOString`: an injective rendering of a
millisecond timestamp as text, used inside the chain hash (storage.ts
line 154). -/
def isoTimestamp (t : Nat) : String :=
  toString t

/-- Stable sort of the table by the `created_at` column, ascending: the model
of `ORDER BY audit_logs.created_at` (storage.ts lines 134, 138, 173). -/
def sortByCreated (l : List AuditEntry) : List AuditEntry :=
  l.insertionSort (fun a b => a.createdAt ≤ b.createdAt)

/-- `SQLiteStorage.getLatestAuditLog` (storage.ts lines 137-140):
`ORDER BY created_at DESC LIMIT 1`, i.e. the last element in ascending
`created_at` order, or `none` on an empty table. -/
def getLatestAuditLog (l : List AuditEntry) : Option AuditEntry :=
  (sortByCreated l).getLast?

/-- `SQLiteStorage.createAuditLog` (storage.ts lines 142-168).  The ledger is
the list of rows in insertion order; the function returns the grown ledger
and the inserted row.  `prevLog?.hash || 'GENESIS'` becomes a match on
`getLatestAuditLog`; the chain hash uses `new Date().toISOString()` taken
inside the call (`req.now`), while the stored `createdAt` is
`insertLog.createdAt || new Date()` (`req.createdAtArg` when present).
The computed `payloadHash` (line 151) enters the chain hash (line 155) and
is spread into `logWithChain` (line 160), but the `audit_logs` table
declares no `payload_hash` column, so the insert drops it: the persisted
row has no such field. -/
def createAuditLog (ledger : List AuditEntry) (req : AppendReq) :
    List AuditEntry × AuditEntry :=
  let prevHash : HashVal :=
    match getLatestAuditLog ledger with
    | some prevLog => prevLog.hash
    | none => HashVal.genesis
  let payloadHash := HashVal.payloadH req.payload
  let hash := HashVal.chainH prevHash payloadHash (isoTimestamp req.now)
  let entry : AuditEntry :=
    { id := req.id
      entityType := req.entityType
      entityId := req.entityId
      action := req.action
      payload := req.payload
      prevHash := prevHash
      hash := hash
      createdAt := req.createdAtArg.getD req.now }
  (ledger ++ [entry], entry)

/-- A sequence of `createAuditLog` calls, run left to right. -/
def appendMany (ledger : List AuditEntry) : List AppendReq → List AuditEntry
  | [] => ledger
  | r :: rs => appendMany (createAuditLog ledger r).1 rs

/-- Result shape of `verifyAuditChain`: `{ valid, brokenAt? }`. -/
structure VerifyResult where
  valid : Bool
  brokenAt : Option String
deriving DecidableEq, Repr

/-- The loop body of `SQLiteStorage.verifyAuditChain` (storage.ts lines
175-187): walk the rows tracking `expectedPrevHash`, report the first row
whose `prevHash` differs, else succeed.  (`log.hash || ''` never takes the
`''` branch on rows written by `createAuditLog`, which always sets `hash`.) -/
def walkChain (expectedPrevHash : HashVal) : List AuditEntry → VerifyResult
  | [] => { valid := true, brokenAt := none }
  | log :: rest =>
    if log.prevHash = expectedPrevHash then
      walkChain log.hash rest
    else
      { valid := false, brokenAt := some log.id }

/-- `SQLiteStorage.verifyAuditChain` (storage.ts lines 171-188): the rows are
read in ascending `created_at` order, then walked. -/
def verifyAuditChain (ledger : List AuditEntry) : VerifyResult :=
  walkChain HashVal.genesis (sortByCreated ledger)

/-- The `expectedPrevHash` value the verify loop holds after consuming `l`,
having started from `expected`: the hash of the last entry of `l`, or the
starting value when `l` is empty. -/
def lastHashFrom (expected : HashVal) : List AuditEntry → HashVal
  | [] => expected
  | e :: rest => lastHashFrom e.hash rest

/-- The well-chained predicate the verify walk checks: each entry's
`prevHash` equals the running expected hash. -/
def chained (expected : HashVal) : List AuditEntry → Prop
  | [] => True
  | e :: rest => e.prevHash = expected ∧ chained e.hash rest

/-- Overwrite the `prevHash` column of the row at position `i` (in insertion
order) with `v`, leaving every other column and row untouched: the tampering
move of claim C3. -/
def tamperPrevHash (v : HashVal) : Nat → List AuditEntry → List AuditEntry
  | _, [] => []
  | 0, e :: rest => { e with prevHash := v } :: rest
  | n + 1, e :: rest => e :: tamperPrevHash v n rest

/-- The caller-visible `createdAt` of an append: the stored timestamp,
`insertLog.createdAt || new Date()`. -/
def effCreatedAt (r : AppendReq) : Nat :=
  r.createdAtArg.getD r.now

/-! ## Risk-assessment pipeline (`src/server/services/aiService.ts`) -/

/-- `RiskAssessment` (aiService.ts lines 6-10). -/
structure RiskAssessment where
  travelerId : String
  riskScore : Nat
  riskReason : String
deriving DecidableEq, Repr

/-- `TravelerFeatures` (aiService.ts lines 12-18).  The optional
`nationalityRiskLevel` is an `Option`. -/
structure TravelerFeatures where
  id : String
  passportHash : String
  ageRange : String
  missingFieldsCount : Nat
  nationalityRiskLevel : Option String
deriving DecidableEq, Repr

/-- `CachedResult` (aiService.ts lines 20-24); `timestamp` is
`Date.now()` milliseconds. -/
structure CachedResult where
  riskScore : Nat
  riskReason : String
  timestamp : Nat
deriving DecidableEq, Repr

/-- The in-memory cache `Map<string, CachedResult>`, modelled as an
association list where the most recent `set` for a key is the first
binding found. -/
abbrev Cache : Type := List (String × CachedResult)

/-- `this.cacheTTL = 24 * 60 * 60 * 1000` (aiService.ts line 32). -/
def cacheTTL : Nat := 24 * 60 * 60 * 1000

/-- `Map.prototype.get`. -/
def cacheFind (cache : Cache) (fingerprint : String) : Option CachedResult :=
  match cache with
  | [] => none
  | (k, v) :: rest => if k = fingerprint then some v else cacheFind rest fingerprint

/-- `Map.prototype.set`: the new binding shadows any older one. -/
def cacheSet (cache : Cache) (fingerprint : String) (v : CachedResult) : Cache :=
  (fingerprint, v) :: cache

/-- `AIService.getFromCache` (aiService.ts lines 90-98): a hit only while
`Date.now() - cached.timestamp < cacheTTL`; `now` is the ambient
`Date.now()`.  (Truncated `Nat` subtraction agrees with the JavaScript
number subtraction whenever `now ≥ timestamp`, and both sides report a hit
when `now < timestamp`.) -/
def getFromCache (cache : Cache) (now : Nat) (fingerprint : String) :
    Option CachedResult :=
  match cacheFind cache fingerprint with
  | some cached => if now - cached.timestamp < cacheTTL then some cached else none
  | none => none

/-- Model of the truncated hex digest built by `generateFingerprint`
(aiService.ts lines 82-85): `sha256(str).hex.substring(0, 16)` is idealized
as a collision-free function of `str`, represented by `str` itself tagged
with a marker prefix. -/
def fingerprintDigest (s : String) : String :=
  "fp:" ++ s

/-- `AIService.generateFingerprint` (aiService.ts lines 82-85): digest of
the colon-joined feature fields, with `nationalityRiskLevel || ''`. -/
def generateFingerprint (f : TravelerFeatures) : String :=
  fingerprintDigest
    (f.passportHash ++ ":" ++ f.ageRange ++ ":" ++ toString f.missingFieldsCount
      ++ ":" ++ f.nationalityRiskLevel.getD "")

/-- Character-list equality with a leading segment: does `s` start with
`pat`? -/
def startsWithChars : List Char → List Char → Bool
  | _, [] => true
  | [], _ :: _ => false
  | c :: cs, p :: ps => c = p && startsWithChars cs ps

/-- Does `pat` occur as a contiguous segment of `s`? -/
def containsChars (pat : List Char) : List Char → Bool
  | [] => startsWithChars [] pat
  | c :: cs => startsWithChars (c :: cs) pat || containsChars pat cs

/-- `String.prototype.includes`: substring test on the underlying
character lists. -/
def strContains (s pat : String) : Bool :=
  containsChars pat.data s.data

/-- `AIService.mockAssessment` (aiService.ts lines 301-335): the
deterministic scorer.  Base 10; +30 when `ageRange` contains `'70'` or
`'80'`; +40 when more than 3 fields are missing, else +15 when any is;
+25 when `nationalityRiskLevel === 'high'`; capped by `Math.min(score, 100)`;
reasons collected in trigger order. -/
def mockAssessment (features : TravelerFeatures) : RiskAssessment :=
  let base : Nat × List String := (10, [])
  let afterAge :=
    if strContains features.ageRange "70" || strContains features.ageRange "80" then
      (base.1 + 30, base.2 ++ ["Senior age group"])
    else base
  let afterMissing :=
    if features.missingFieldsCount > 3 then
      (afterAge.1 + 40, afterAge.2 ++ [toString features.missingFieldsCount ++ " missing fields"])
    else if features.missingFieldsCount > 0 then
      (afterAge.1 + 15, afterAge.2 ++ [toString features.missingFieldsCount ++ " missing fields"])
    else afterAge
  let afterNat :=
    if features.nationalityRiskLevel = some "high" then
      (afterMissing.1 + 25, afterMissing.2 ++ ["High-risk nationality profile"])
    else afterMissing
  { travelerId := features.id
    riskScore := min afterNat.1 100
    riskReason :=
      if afterNat.2.length > 0 then "Mock: " ++ String.intercalate ", " afterNat.2
      else "Mock: Low risk profile" }

/-- One element of the JSON array parsed out of the oracle's reply body.
Each field is optional: a missing array element contributes `none` to both
(in JavaScript, `parsed[i]?.riskScore` is `undefined`). -/
structure ParsedScore where
  riskScore : Option Nat
  riskReason : Option String
deriving DecidableEq, Repr

/-- JavaScript `v || d` on a possibly-undefined number: `undefined` and the
falsy `0` both yield `d`. -/
def jsOrNat (v : Option Nat) (d : Nat) : Nat :=
  match v with
  | some n => if n = 0 then d else n
  | none => d

/-- JavaScript `v || d` on a possibly-undefined string: `undefined` and the
falsy `''` both yield `d`. -/
def jsOrString (v : Option String) (d : String) : String :=
  match v with
  | some s => if s = "" then d else s
  | none => d

/-- The success branch of `parseOpenAIResponse` (aiService.ts lines
287-291): `featuresList.map((f, i) => ({ travelerId: f.id, riskScore:
parsed[i]?.riskScore || 0, riskReason: parsed[i]?.riskReason || 'Unknown' }))`.
The indexed access `parsed[i]` walks the parsed array in lockstep with the
feature list, so it is written as simultaneous recursion. -/
def parseScores : List ParsedScore → List TravelerFeatures → List RiskAssessment
  | _, [] => []
  | [], f :: fs =>
    { travelerId := f.id, riskScore := 0, riskReason := "Unknown" } :: parseScores [] fs
  | p :: ps, f :: fs =>
    { travelerId := f.id
      riskScore := jsOrNat p.riskScore 0
      riskReason := jsOrString p.riskReason "Unknown" } :: parseScores ps fs

/-- `AIService.parseOpenAIResponse` (aiService.ts lines 279-296) after the
text step: the argument is the result of extracting and `JSON.parse`-ing the
body (`none` when that throws, i.e. the body holds no well-formed array);
the catch branch falls back to `mockAssessment` for the whole list. -/
def parseOpenAIResponse (parsed : Option (List ParsedScore))
    (featuresList : List TravelerFeatures) : List RiskAssessment :=
  match parsed with
  | some arr => parseScores arr featuresList
  | none => featuresList.map mockAssessment

/-- Outcome of one `callOpenAI(uncached)` call, after its internal retry
loop: either the call throws (HTTP failure / retries exhausted — the
`catch` in `assessBatch` fires), or it returns a body whose extracted JSON
is `content` (`none` when unparsable). -/
inductive OracleOutcome where
  | thrown : OracleOutcome
  | replied (content : Option (List ParsedScore)) : OracleOutcome

/-- The oracle (network + retry loop) abstracted as a function from the
dispatched uncached chunk to its outcome. -/
def Oracle : Type := List TravelerFeatures → OracleOutcome

/-- The per-batch cache partition loop of `assessBatch` (aiService.ts lines
160-177): push a cache hit onto `cachedResults`, a miss onto `uncached`,
preserving the batch order within each of the two lists.  All lookups read
the cache as it stood at the start of the batch, as in the source. -/
def partitionCache (cache : Cache) (now : Nat) :
    List TravelerFeatures → List RiskAssessment × List TravelerFeatures
  | [] => ([], [])
  | features :: rest =>
    let (cs, us) := partitionCache cache now rest
    match getFromCache cache now (generateFingerprint features) with
    | some cached =>
      ({ travelerId := features.id
         riskScore := cached.riskScore
         riskReason := cached.riskReason } :: cs, us)
    | none => (cs, features :: us)

/-- The cache-write loop after a successful oracle call (aiService.ts lines
187-194): `cache.set(fingerprint(uncached[i]), {batchResults[i]…,
timestamp: Date.now()})` for each `i`, in order. -/
def cacheMany (now : Nat) (cache : Cache) :
    List TravelerFeatures → List RiskAssessment → Cache
  | f :: fs, r :: rs =>
    cacheMany now
      (cacheSet cache (generateFingerprint f)
        { riskScore := r.riskScore, riskReason := r.riskReason, timestamp := now })
      fs rs
  | _, _ => cache

/-- The body of `assessBatch`'s per-batch loop (aiService.ts lines 159-206):
partition by cache, call the oracle for the misses (when any), fall back to
`mockAssessment` for the whole miss set when the call throws, then append —
oracle/fallback results first, cached results after, exactly as the two
`results.push` sites order them. -/
def processBatch (oracle : Oracle) (now : Nat) (cache : Cache)
    (batch : List TravelerFeatures) : List RiskAssessment × Cache :=
  let (cachedResults, uncached) := partitionCache cache now batch
  if uncached.length > 0 then
    match oracle uncached with
    | OracleOutcome.thrown => (uncached.map mockAssessment ++ cachedResults, cache)
    | OracleOutcome.replied content =>
      let batchResults := parseOpenAIResponse content uncached
      (batchResults ++ cachedResults, cacheMany now cache uncached batchResults)
  else
    (cachedResults, cache)

/-- The outer batch loop of `assessBatch`, threading the cache. -/
def processBatches (oracle : Oracle) (now : Nat) (cache : Cache) :
    List (List TravelerFeatures) → List RiskAssessment × Cache
  | [] => ([], cache)
  | b :: bs =>
    let (rs, cache1) := processBatch oracle now cache b
    let (rest, cache2) := processBatches oracle now cache1 bs
    (rs ++ rest, cache2)

/-- Worker for `chunksOf`.  Each loop iteration with a positive step
consumes at least one element, so the iteration count is bounded by the
list length; the `fuel` argument makes that bound structural (it is always
called with fuel ≥ length, so the fuel-exhausted arm is unreachable).  A
zero step would not advance the JavaScript loop at all; that configuration
is unreachable from the source (`maxBatchSize` defaults to 50) and is
modelled as a single chunk. -/
def chunksOfGo : Nat → Nat → List TravelerFeatures → List (List TravelerFeatures)
  | _, _, [] => []
  | _, 0, l => [l]
  | 0, _ + 1, l => [l]
  | fuel + 1, n + 1, l => l.take (n + 1) :: chunksOfGo fuel (n + 1) (l.drop (n + 1))

/-- The chunking loop of `assessBatch` (aiService.ts lines 152-155):
`featuresList.slice(i, i + maxBatchSize)` for `i = 0, n, 2n, …`. -/
def chunksOf (n : Nat) (l : List TravelerFeatures) : List (List TravelerFeatures) :=
  chunksOfGo l.length n l

/-- The configuration `AIService` reads from the environment in its
constructor (aiService.ts lines 34-37): the optional credential and the
batch size. -/
structure AIConfig where
  apiKey : Option String
  maxBatchSize : Nat
deriving DecidableEq, Repr

/-- `AIService.assessBatch` (aiService.ts lines 146-209).  With no API key
the whole list is mapped through `mockAssessment` and the cache is
untouched; otherwise the input is chunked and each chunk processed.
`now` models `Date.now()` for the run. -/
def assessBatch (cfg : AIConfig) (oracle : Oracle) (now : Nat) (cache : Cache)
    (featuresList : List TravelerFeatures) : List RiskAssessment × Cache :=
  match cfg.apiKey with
  | none => (featuresList.map mockAssessment, cache)
  | some _ => processBatches oracle now cache (chunksOf cfg.maxBatchSize featuresList)

/-! ## Risk-scan route handler (`src/server/db.ts`) -/

/-- A row of the `groups` table, reduced to the columns the risk-scan
handler reads. -/
structure Group where
  id : String
  name : String
  status : String
deriving DecidableEq, Repr

/-- A row of the `travelers` table, reduced to the columns the risk-scan
handler reads and writes.  The text columns are `Option String` so that the
JavaScript falsiness tests (`!t.passportNumber` is true for both a missing
and an empty value) can be modelled. -/
structure Traveler where
  id : String
  groupId : Option String
  passportNumber : Option String
  name : Option String
  nationality : Option String
  dob : Option String
  riskScore : Option Nat
  riskReason : Option String
deriving DecidableEq, Repr

/-- JavaScript falsiness of a possibly-missing string: `undefined`/`null`
and `''` are falsy. -/
def jsFalsy (v : Option String) : Bool :=
  match v with
  | none => true
  | some s => s = ""

/-- `countMissingFields` (db.ts lines 385-392): one point per falsy field
among passport number, name, nationality and date of birth. -/
def countMissingFields (t : Traveler) : Nat :=
  (if jsFalsy t.passportNumber then 1 else 0)
    + (if jsFalsy t.name then 1 else 0)
    + (if jsFalsy t.nationality then 1 else 0)
    + (if jsFalsy t.dob then 1 else 0)

/-- Model of `new Date(dob).getFullYear()` on an ISO `YYYY-MM-DD` string:
the leading digit run.  (An unparsable string yields `0`; the source would
produce `NaN` there, a case no claim exercises.) -/
def parseBirthYear (d : String) : Int :=
  ((d.takeWhile (fun c => c ≠ '-')).toNat?).getD 0

/-- `calculateAgeRange` (db.ts lines 377-383): `'unknown'` for a falsy
`dob`, else the decade bracket `"d-(d+10)"` of `currentYear - birthYear`,
with `Math.floor` modelled by flooring integer division. -/
def calculateAgeRange (currentYear : Int) (dob : Option String) : String :=
  if jsFalsy dob then "unknown"
  else
    let birthYear := parseBirthYear (dob.getD "")
    let age := currentYear - birthYear
    let decade := age.fdiv 10 * 10
    toString decade ++ "-" ++ toString (decade + 10)

/-- Model of `crypto.createHash('sha256').update(s).digest('hex')` used on
the passport number (db.ts line 278), idealized as a collision-free
function of `s` represented by a marked copy of `s`. -/
def sha256hexStr (s : String) : String :=
  "sha256:" ++ s

/-- The feature-preparation map of the risk-scan handler (db.ts lines
276-282): hash the passport (empty string when absent), bucket the age,
count missing fields; `nationalityRiskLevel` is passed as `undefined`. -/
def featuresOf (currentYear : Int) (t : Traveler) : TravelerFeatures :=
  { id := t.id
    passportHash := sha256hexStr (t.passportNumber.getD "")
    ageRange := calculateAgeRange currentYear t.dob
    missingFieldsCount := countMissingFields t
    nationalityRiskLevel := none }

/-- `storage.updateTraveler(id, {riskScore, riskReason})` applied to the
travelers table (db.ts lines 288-293). -/
def updateTraveler (table : List Traveler) (id : String) (score : Nat)
    (reason : String) : List Traveler :=
  table.map (fun t =>
    if t.id = id then { t with riskScore := some score, riskReason := some reason }
    else t)

/-- The mutable state the risk-scan handler touches: the groups and
travelers tables, the AI score cache, and the audit ledger. -/
structure SysState where
  groups : List Group
  travelers : List Traveler
  cache : Cache
  ledger : List AuditEntry
deriving Repr

/-- The two early-exit failures of the risk-scan handler: the 404
`'Group not found'` and the 400 `'No travelers to scan'` (the spec's
`EmptyInputError`). -/
inductive ScanError where
  | groupNotFound : ScanError
  | emptyInput : ScanError
deriving DecidableEq, Repr

/-- The handler's success body `{ success, scanned, results }` with
`results` reduced to the `{id, score}` pairs it serializes. -/
structure ScanOk where
  scanned : Nat
  results : List (String × Nat)
deriving DecidableEq, Repr

/-- `Math.round(sum / len)` on non-negative integers: floor of
`sum/len + 1/2`. -/
def jsRoundDiv (sum len : Nat) : Nat :=
  (2 * sum + len) / (2 * len)

/-- Serialization of the risk-scan audit payload
`{ travelersScanned, avgRiskScore }` (db.ts lines 300-303). -/
def scanPayload (travelersScanned avgRiskScore : Nat) : String :=
  "travelersScanned=" ++ toString travelersScanned
    ++ ";avgRiskScore=" ++ toString avgRiskScore

/-- The `/api/groups/:groupId/risk-scan` handler (db.ts lines 258-316).
`now` models the request's wall clock (both the route's `new Date()` and
the ledger's internal timestamp), `currentYear` the year used by
`calculateAgeRange`, and `entryId` the id the database generates for the
audit row.  Order of effects follows the source: group lookup, empty-list
guard, feature preparation, `assessBatch`, traveler updates, one
`createAuditLog` append. -/
def riskScanHandler (cfg : AIConfig) (oracle : Oracle) (now : Nat)
    (currentYear : Int) (groupId : String) (entryId : String) (st : SysState) :
    Except ScanError ScanOk × SysState :=
  match st.groups.find? (fun g => g.id = groupId) with
  | none => (Except.error ScanError.groupNotFound, st)
  | some _ =>
    let travelers := st.travelers.filter (fun t => t.groupId = some groupId)
    if travelers.length = 0 then
      (Except.error ScanError.emptyInput, st)
    else
      let featuresList := travelers.map (featuresOf currentYear)
      let (results, cache1) := assessBatch cfg oracle now st.cache featuresList
      let table1 := results.foldl
        (fun tbl r => updateTraveler tbl r.travelerId r.riskScore r.riskReason)
        st.travelers
      let avg := jsRoundDiv (results.foldl (fun acc r => acc + r.riskScore) 0)
        results.length
      let req : AppendReq :=
        { id := entryId
          entityType := "group"
          entityId := groupId
          action := "risk_scan"
          payload := scanPayload travelers.length avg
          createdAtArg := some now
          now := now }
      let ledger1 := (createAuditLog st.ledger req).1
      (Except.ok
          { scanned := travelers.length
            results := results.map (fun r => (r.travelerId, r.riskScore)) },
        { st with travelers := table1, cache := cache1, ledger := ledger1 })

/-- The `scoreBatch` entry point as the rest of the system sees it:
`aiService.assessBatch` run against the system state.  The service holds no
reference to the storage layer (aiService.ts imports only `crypto`, `fs`,
`path`), so of the state it can read or write only the score cache; the
groups, travelers and ledger components pass through. -/
def scoreBatchCall (cfg : AIConfig) (oracle : Oracle) (now : Nat)
    (st : SysState) (featuresList : List TravelerFeatures) :
    List RiskAssessment × SysState :=
  let (rs, cache1) := assessBatch cfg oracle now st.cache featuresList
  (rs, { st with cache := cache1 })

/-! ## Reference definition written from the specification (for claim C6) -/

/-- The age-trigger of the spec's reference scorer, following the spec's
words (§4.3): "+30 if age bucket denotes the oldest two brackets", read as
the two oldest decade buckets the code's `calculateAgeRange` commonly
produces, `"70-80"` and `"80-90"`.  (Any other reading of "oldest two"
excludes `"60-70"` as well, which is all the comparison below uses.) -/
def specOldestTwo (bucket : String) : Bool :=
  bucket = "70-80" || bucket = "80-90"

/-- The spec's reference risk score (§4.3), written from the spec's words
rather than from the source, for comparison against `mockAssessment`:
base 10; +30 for the oldest two age brackets; +40 if more than 3 fields
missing, else +15 if any; +25 for a high risk hint; clamped to 100. -/
def specDeterministicScoreValue (f : TravelerFeatures) : Nat :=
  min (10 + (if specOldestTwo f.ageRange then 30 else 0)
    + (if f.missingFieldsCount > 3 then 40
       else if f.missingFieldsCount > 0 then 15 else 0)
    + (if f.nationalityRiskLevel = some "high" then 25 else 0)) 100

/-! ## Concrete instances used by counterexamples and witnesses -/

/-- A feature record in the `"60-70"` age bucket with nothing else
triggered. -/
def fOld : TravelerFeatures :=
  { id := "t", passportHash := "p", ageRange := "60-70",
    missingFieldsCount := 0, nationalityRiskLevel := none }

/-- Subject A of the two-subject scenarios. -/
def fA : TravelerFeatures :=
  { id := "A", passportHash := "hA", ageRange := "30-40",
    missingFieldsCount := 0, nationalityRiskLevel := none }

/-- Subject B of the two-subject scenarios. -/
def fB : TravelerFeatures :=
  { id := "B", passportHash := "hB", ageRange := "30-40",
    missingFieldsCount := 0, nationalityRiskLevel := none }

/-- A single well-formed oracle score element. -/
def p0 : ParsedScore := { riskScore := some 50, riskReason := some "ok" }

/-- An append request whose caller supplies a stored `createdAt` (as every
call site in db.ts does) differing from the append-time clock. -/
def c4req : AppendReq :=
  { id := "e1", entityType := "group", entityId := "g1", action := "create",
    payload := "pl", createdAtArg := some 0, now := 1000 }

/-- First append of the two-append ledger runs. -/
def q1 : AppendReq :=
  { id := "a1", entityType := "group", entityId := "g", action := "create",
    payload := "p1", createdAtArg := some 10, now := 11 }

/-- Second append of the two-append ledger runs. -/
def q2 : AppendReq :=
  { id := "a2", entityType := "group", entityId := "g", action := "update",
    payload := "p2", createdAtArg := some 20, now := 21 }

/-- A configuration with a credential present and the default batch size. -/
def c1cfg : AIConfig := { apiKey := some "k", maxBatchSize := 50 }

/-- A cache that already holds a fresh entry for subject A. -/
def c1cache : Cache :=
  [(generateFingerprint fA, { riskScore := 20, riskReason := "cached", timestamp := 0 })]

/-- An oracle that answers every chunk with the single score `p0`. -/
def c1oracle : Oracle := fun _ => OracleOutcome.replied (some [p0])

/-- A state holding one group `"g"` and no travelers at all. -/
def c9state : SysState :=
  { groups := [{ id := "g", name := "G", status := "draft" }],
    travelers := [], cache := [], ledger := [] }

/-! ## Helper lemmas -/

/-- `parseScores` keeps the feature ids, position by position. -/
theorem parseScores_ids : ∀ (arr : List ParsedScore) (fl : List TravelerFeatures),
    (parseScores arr fl).map (fun r => r.travelerId) = fl.map (fun f => f.id) := by
  intro arr fl
  induction fl generalizing arr with
  | nil => cases arr <;> rfl
  | cons f fs ih =>
    cases arr with
    | nil => simp [parseScores, ih]
    | cons p ps => simp [parseScores, ih]

/-- The deterministic scorer answers under the subject's own id. -/
theorem mock_id (f : TravelerFeatures) : (mockAssessment f).travelerId = f.id := rfl

/-- Mapping the deterministic scorer over a list keeps the ids. -/
theorem map_mock_ids (fl : List TravelerFeatures) :
    (fl.map mockAssessment).map (fun r => r.travelerId) = fl.map (fun f => f.id) := by
  simp [List.map_map, Function.comp_def, mock_id]

/-- Both branches of `parseOpenAIResponse` keep the feature ids. -/
theorem parseResp_ids (content : Option (List ParsedScore)) (fl : List TravelerFeatures) :
    (parseOpenAIResponse content fl).map (fun r => r.travelerId) = fl.map (fun f => f.id) := by
  cases content <;> simp [parseOpenAIResponse, parseScores_ids, Function.comp_def, mock_id]

/-- The cache partition splits a batch into two id-disjoint interleavings:
together the hit results and the miss features carry exactly the batch's
ids. -/
theorem partitionCache_perm (cache : Cache) (now : Nat) : ∀ batch : List TravelerFeatures,
    ((partitionCache cache now batch).1.map (fun r => r.travelerId)
      ++ (partitionCache cache now batch).2.map (fun f => f.id)).Perm
      (batch.map (fun f => f.id)) := by
  intro batch
  induction batch with
  | nil => simp [partitionCache]
  | cons f fs ih =>
    rcases hp : partitionCache cache now fs with ⟨cs, us⟩
    rw [hp] at ih
    cases hg : getFromCache cache now (generateFingerprint f) with
    | some cached =>
      simp only [partitionCache, hp, hg, List.map_cons, List.cons_append]
      exact ih.cons f.id
    | none =>
      simp only [partitionCache, hp, hg, List.map_cons]
      exact List.perm_middle.trans (ih.cons f.id)

/-- One batch step returns one assessment per batch subject (as a
permutation of the ids). -/
theorem processBatch_perm (oracle : Oracle) (now : Nat) (cache : Cache)
    (batch : List TravelerFeatures) :
    ((processBatch oracle now cache batch).1.map (fun r => r.travelerId)).Perm
      (batch.map (fun f => f.id)) := by
  have hpart := partitionCache_perm cache now batch
  rcases hp : partitionCache cache now batch with ⟨cs, us⟩
  rw [hp] at hpart
  simp only [processBatch, hp]
  by_cases hu : us.length > 0
  · simp only [hu, if_true]
    cases horacle : oracle us with
    | thrown =>
      simp only [List.map_append, map_mock_ids]
      exact (List.perm_append_comm).trans hpart
    | replied content =>
      simp only [List.map_append, parseResp_ids]
      exact (List.perm_append_comm).trans hpart
  · simp only [hu, if_false]
    have hus : us = [] := List.eq_nil_of_length_eq_zero (by omega)
    subst hus
    simpa using hpart

/-- The batch loop returns one assessment per subject of the concatenated
chunks. -/
theorem processBatches_perm (oracle : Oracle) (now : Nat) :
    ∀ (bs : List (List TravelerFeatures)) (cache : Cache),
    ((processBatches oracle now cache bs).1.map (fun r => r.travelerId)).Perm
      (bs.flatten.map (fun f => f.id)) := by
  intro bs
  induction bs with
  | nil => intro cache; simp [processBatches]
  | cons b rest ih =>
    intro cache
    rcases hb : processBatch oracle now cache b with ⟨rs, cache1⟩
    rcases hr : processBatches oracle now cache1 rest with ⟨rest1, cache2⟩
    have h1 := processBatch_perm oracle now cache b
    rw [hb] at h1
    have h2 := ih cache1
    rw [hr] at h2
    simp only [processBatches, hb, hr, List.flatten_cons, List.map_append]
    exact h1.append h2

/-- The chunking worker loses no element: concatenating the chunks gives
back the input. -/
theorem chunksOfGo_join : ∀ (fuel n : Nat) (l : List TravelerFeatures),
    (chunksOfGo fuel n l).flatten = l := by
  intro fuel
  induction fuel with
  | zero => intro n l; cases n <;> cases l <;> simp [chunksOfGo]
  | succ fu ih =>
    intro n l
    cases n with
    | zero => cases l <;> simp [chunksOfGo]
    | succ m =>
      cases l with
      | nil => simp [chunksOfGo]
      | cons x xs => simp [chunksOfGo, ih]

/-- Concatenating the chunks of `chunksOf` gives back the input. -/
theorem chunksOf_join (n : Nat) (l : List TravelerFeatures) : (chunksOf n l).flatten = l :=
  chunksOfGo_join l.length n l

/-- A ledger with strictly increasing stored timestamps reads back from the
database in insertion order. -/
theorem sortByCreated_eq_self (l : List AuditEntry)
    (h : l.Pairwise (fun a b => a.createdAt < b.createdAt)) :
    sortByCreated l = l := by
  apply List.Sorted.insertionSort_eq
  exact h.imp (fun hab => Nat.le_of_lt hab)

/-- The verify walk succeeds on a well-chained row list. -/
theorem chained_walk : ∀ (l : List AuditEntry) (exp : HashVal),
    chained exp l → walkChain exp l = { valid := true, brokenAt := none } := by
  intro l
  induction l with
  | nil => intro exp _; rfl
  | cons e rest ih =>
    intro exp h
    obtain ⟨h1, h2⟩ := h
    simp only [walkChain, h1, if_true]
    exact ih e.hash h2

/-- `lastHashFrom` is the hash of the last entry, or the seed on an empty
list. -/
theorem lastHashFrom_eq : ∀ (l : List AuditEntry) (exp : HashVal),
    lastHashFrom exp l =
      (match l.getLast? with
        | some x => x.hash
        | none => exp) := by
  intro l
  induction l with
  | nil => intro exp; rfl
  | cons e rest ih =>
    intro exp
    cases rest with
    | nil => rfl
    | cons f rs =>
      rw [lastHashFrom, ih e.hash, List.getLast?_cons_cons]
      cases h : (f :: rs).getLast? with
      | none => simp at h
      | some x => rfl

/-- Appending an entry whose `prevHash` is the current tail hash keeps the
list well chained. -/
theorem chained_snoc : ∀ (l : List AuditEntry) (exp : HashVal) (e : AuditEntry),
    chained exp l → e.prevHash = lastHashFrom exp l → chained exp (l ++ [e]) := by
  intro l
  induction l with
  | nil => intro exp e _ hprev; exact ⟨hprev, trivial⟩
  | cons f fs ih =>
    intro exp e h hprev
    exact ⟨h.1, ih f.hash e h.2 hprev⟩

/-- Running a monotonically timestamped sequence of appends on a
well-chained, time-sorted ledger yields a well-chained, time-sorted
ledger. -/
theorem append_invariant : ∀ (reqs : List AppendReq) (ledger : List AuditEntry),
    ledger.Pairwise (fun a b => a.createdAt < b.createdAt) →
    chained HashVal.genesis ledger →
    (∀ e ∈ ledger, ∀ r ∈ reqs, e.createdAt < effCreatedAt r) →
    (reqs.map effCreatedAt).Pairwise (fun a b => a < b) →
    (appendMany ledger reqs).Pairwise (fun a b => a.createdAt < b.createdAt) ∧
      chained HashVal.genesis (appendMany ledger reqs) := by
  intro reqs
  induction reqs with
  | nil => intro ledger h1 h2 _ _; exact ⟨h1, h2⟩
  | cons r rs ih =>
    intro ledger h1 h2 h3 h4
    simp only [appendMany]
    have hnew : (createAuditLog ledger r).1 = ledger ++ [(createAuditLog ledger r).2] := rfl
    have hcreated : (createAuditLog ledger r).2.createdAt = effCreatedAt r := rfl
    have hprev : (createAuditLog ledger r).2.prevHash =
        lastHashFrom HashVal.genesis ledger := by
      have hsort : sortByCreated ledger = ledger := sortByCreated_eq_self ledger h1
      have hstep : (createAuditLog ledger r).2.prevHash =
          (match ledger.getLast? with
            | some p => p.hash
            | none => HashVal.genesis) := by
        simp only [createAuditLog, getLatestAuditLog, hsort]
      rw [hstep, lastHashFrom_eq]
    rw [hnew]
    apply ih
    · rw [List.pairwise_append]
      refine ⟨h1, by simp, ?_⟩
      intro a ha b hb
      simp only [List.mem_singleton] at hb
      subst hb
      rw [hcreated]
      exact h3 a ha r (by simp)
    · exact chained_snoc ledger HashVal.genesis _ h2 hprev
    · intro e he r' hr'
      rcases List.mem_append.mp he with hel | hee
      · exact h3 e hel r' (List.mem_cons_of_mem r hr')
      · simp only [List.mem_singleton] at hee
        subst hee
        rw [hcreated]
        have h4' : (∀ a ∈ rs, effCreatedAt r < effCreatedAt a) ∧
            (rs.map effCreatedAt).Pairwise (fun a b => a < b) := by simpa using h4
        exact h4'.1 r' hr'
    · have h4' : (∀ a ∈ rs, effCreatedAt r < effCreatedAt a) ∧
          (rs.map effCreatedAt).Pairwise (fun a b => a < b) := by simpa using h4
      exact h4'.2

/-- Overwriting one `prevHash` leaves every stored timestamp unchanged. -/
theorem tamper_createdAts (v : HashVal) : ∀ (l : List AuditEntry) (i : Nat),
    (tamperPrevHash v i l).map (fun e => e.createdAt) = l.map (fun e => e.createdAt) := by
  intro l
  induction l with
  | nil => intro i; cases i <;> rfl
  | cons e rest ih =>
    intro i
    cases i with
    | zero => rfl
    | succ n => simp [tamperPrevHash, ih n]

/-- Overwriting the `prevHash` at position `i` leaves the first `i` rows
untouched. -/
theorem tamper_take (v : HashVal) : ∀ (l : List AuditEntry) (i : Nat),
    (tamperPrevHash v i l).take i = l.take i := by
  intro l
  induction l with
  | nil => intro i; cases i <;> rfl
  | cons e rest ih =>
    intro i
    cases i with
    | zero => rfl
    | succ n => simp [tamperPrevHash, List.take_cons, ih n]

/-- Overwriting one `prevHash` preserves strict timestamp ordering. -/
theorem tamper_pairwise (v : HashVal) (i : Nat) (l : List AuditEntry)
    (h : l.Pairwise (fun a b => a.createdAt < b.createdAt)) :
    (tamperPrevHash v i l).Pairwise (fun a b => a.createdAt < b.createdAt) := by
  have h1 : (l.map (fun e => e.createdAt)).Pairwise (fun a b => a < b) :=
    List.pairwise_map.mpr h
  have h2 := (tamper_createdAts v l i) ▸ h1
  exact List.pairwise_map.mp h2

/-- On a well-chained list, the verify walk stops exactly at a tampered
`prevHash` and reports that row's id. -/
theorem walk_tamper : ∀ (l : List AuditEntry) (exp : HashVal) (i : Nat) (v : HashVal),
    chained exp l → ∀ hi : i < l.length,
    v ≠ lastHashFrom exp (l.take i) →
    walkChain exp (tamperPrevHash v i l) =
      { valid := false, brokenAt := some ((l.get ⟨i, hi⟩).id) } := by
  intro l
  induction l with
  | nil => intro exp i v _ hi; simp at hi
  | cons e rest ih =>
    intro exp i v hch hi hv
    cases i with
    | zero =>
      have hne : v ≠ exp := by simpa [lastHashFrom] using hv
      simp [tamperPrevHash, walkChain, hne]
    | succ n =>
      have hn : n < rest.length := by simpa using hi
      have hv' : v ≠ lastHashFrom e.hash (rest.take n) := by
        simpa [List.take_cons, lastHashFrom] using hv
      simp only [tamperPrevHash, walkChain, hch.1, if_true]
      exact ih e.hash n v hch.2 hn hv'

/-! ## Claim theorems -/

/-- Claim C1, counterexample: `assessBatch` does not keep the input subject
order.  With subject A a fresh cache hit and subject B a miss answered by
the oracle, the result lists B's assessment before A's (the source pushes
`batchResults` before `cachedResults`), so the output id sequence differs
from the input id sequence. -/
theorem C1_assessBatch_order_counterexample :
    ((assessBatch c1cfg c1oracle 0 c1cache [fA, fB]).1.map (fun r => r.travelerId))
      ≠ [fA.id, fB.id] := by
  decide

/-- Claim C1, amended: `assessBatch` on a list of K feature records always
returns exactly K assessments, one per input subject — the returned
`travelerId`s are a permutation of the input ids — regardless of the
cache/oracle/fallback mix; the input order itself is not preserved when a
chunk mixes cache hits with misses. -/
theorem C1_assessBatch_one_result_per_subject (cfg : AIConfig) (oracle : Oracle)
    (now : Nat) (cache : Cache) (fl : List TravelerFeatures) :
    ((assessBatch cfg oracle now cache fl).1.map (fun r => r.travelerId)).Perm
      (fl.map (fun f => f.id)) ∧
    (assessBatch cfg oracle now cache fl).1.length = fl.length := by
  have hperm : ((assessBatch cfg oracle now cache fl).1.map (fun r => r.travelerId)).Perm
      (fl.map (fun f => f.id)) := by
    cases hk : cfg.apiKey with
    | none => simp [assessBatch, hk, Function.comp_def, mock_id]
    | some k =>
      have h := processBatches_perm oracle now (chunksOf cfg.maxBatchSize fl) cache
      rw [chunksOf_join] at h
      simpa [assessBatch, hk] using h
  refine ⟨hperm, ?_⟩
  have hlen := hperm.length_eq
  simpa using hlen

/-- Claim C2: every sequence of non-interleaved appends starting from the
empty ledger verifies as valid (the empty ledger being the zero-append
instance).  Sequential, non-interleaved execution is modelled by the
hypothesis that the stored timestamps of the appends strictly increase, so
that the database's `created_at` ordering coincides with append order. -/
theorem C2_verify_valid_after_appends (reqs : List AppendReq)
    (hmono : (reqs.map effCreatedAt).Pairwise (fun a b => a < b)) :
    verifyAuditChain (appendMany [] reqs) = { valid := true, brokenAt := none } := by
  obtain ⟨hp, hc⟩ := append_invariant reqs [] (by simp) trivial (by simp) hmono
  unfold verifyAuditChain
  rw [sortByCreated_eq_self _ hp]
  exact chained_walk _ _ hc

/-- Witness for C2: the empty run and a concrete two-append run both verify
as valid. -/
theorem C2_verify_valid_after_appends_witness :
    verifyAuditChain (appendMany [] []) = { valid := true, brokenAt := none } ∧
    verifyAuditChain (appendMany [] [q1, q2]) = { valid := true, brokenAt := none } :=
  ⟨C2_verify_valid_after_appends [] (by decide),
   C2_verify_valid_after_appends [q1, q2] (by decide)⟩

/-- Claim C3: on a ledger built by appends, overwriting the `prevHash` of
the entry at position `i` with any value different from the preceding
entry's hash (the genesis sentinel for the first entry) makes `verify`
report `{valid := false, brokenAt := that entry's id}` — the walk stops at
the first mismatch in creation order — and the entries before position `i`
are unaffected. -/
theorem C3_verify_flags_tampered_entry (reqs : List AppendReq) (i : Nat) (v : HashVal)
    (hmono : (reqs.map effCreatedAt).Pairwise (fun a b => a < b))
    (hi : i < (appendMany [] reqs).length)
    (hv : v ≠ (match ((appendMany [] reqs).take i).getLast? with
      | some prev => prev.hash
      | none => HashVal.genesis)) :
    verifyAuditChain (tamperPrevHash v i (appendMany [] reqs)) =
      { valid := false, brokenAt := some (((appendMany [] reqs).get ⟨i, hi⟩).id) } ∧
    (tamperPrevHash v i (appendMany [] reqs)).take i = (appendMany [] reqs).take i := by
  obtain ⟨hp, hc⟩ := append_invariant reqs [] (by simp) trivial (by simp) hmono
  have hv' : v ≠ lastHashFrom HashVal.genesis ((appendMany [] reqs).take i) := by
    rw [lastHashFrom_eq]
    exact hv
  refine ⟨?_, tamper_take v (appendMany [] reqs) i⟩
  unfold verifyAuditChain
  rw [sortByCreated_eq_self _ (tamper_pairwise v i _ hp)]
  exact walk_tamper (appendMany [] reqs) HashVal.genesis i v hc hi hv'

/-- Witness for C3: overwrite the second entry's `prevHash` of a concrete
two-append ledger; verify reports that entry's id and the first entry is
untouched. -/
theorem C3_verify_flags_tampered_entry_witness :
    verifyAuditChain (tamperPrevHash (HashVal.other "X") 1 (appendMany [] [q1, q2])) =
      { valid := false, brokenAt := some "a2" } ∧
    (tamperPrevHash (HashVal.other "X") 1 (appendMany [] [q1, q2])).take 1 =
      (appendMany [] [q1, q2]).take 1 := by
  have h := C3_verify_flags_tampered_entry [q1, q2] 1 (HashVal.other "X")
    (by decide) (by decide) (by decide)
  simpa using h

/-- Claim C4, counterexample: the chain hash is not computed from the
entry's stored `createdAt`.  With a caller-supplied `createdAt` of `0` and
an append-time clock of `1000` (every route call site supplies its own
`createdAt`), the stored timestamp is `0` while the hash covers the
append-time ISO timestamp `1000`, so
`hash = H(prevHash ‖ H(serialize(payload)) ‖ storedCreatedAt)` fails at
this input.  (The claim's `payloadHash` conjunct fails too, on a different
count: the persisted row has no `payloadHash` field at all — see
`AuditEntry` — so the claimed equation is stated here with the computed
value `H(serialize(payload))` in its place.) -/
theorem C4_hash_uses_stored_createdAt_counterexample :
    ¬ (((createAuditLog [] c4req).2).prevHash = HashVal.genesis ∧
       ((createAuditLog [] c4req).2).hash =
         HashVal.chainH ((createAuditLog [] c4req).2).prevHash
           (HashVal.payloadH c4req.payload)
           (isoTimestamp ((createAuditLog [] c4req).2).createdAt)) := by
  decide

/-- Claim C4, amended: for every append, `prevHash` is the hash of the
chronologically latest entry (or the genesis sentinel on an empty ledger),
and `hash = H(prevHash ‖ H(serialize(payload)) ‖ t)` where `t` is a fresh
timestamp taken inside the append at append time — while the stored
`createdAt` is the caller-supplied value when present (the append-time
clock only otherwise), so the hashed timestamp need not equal the stored
one.  The intermediate `payloadHash = H(serialize(payload))` is only
computed and folded into the chain hash: the `audit_logs` table has no
`payload_hash` column, so the persisted entry does not carry it. -/
theorem C4_createAuditLog_fields (ledger : List AuditEntry) (req : AppendReq) :
    ((createAuditLog ledger req).2).prevHash =
      (match getLatestAuditLog ledger with
        | some prevLog => prevLog.hash
        | none => HashVal.genesis) ∧
    ((createAuditLog ledger req).2).hash =
      HashVal.chainH ((createAuditLog ledger req).2).prevHash
        (HashVal.payloadH req.payload) (isoTimestamp req.now) ∧
    ((createAuditLog ledger req).2).createdAt = req.createdAtArg.getD req.now ∧
    (createAuditLog ledger req).1 = ledger ++ [(createAuditLog ledger req).2] :=
  ⟨rfl, rfl, rfl, rfl⟩

/-- Claim C5, counterexample: when the parsed oracle array is one element
short, the subject with no corresponding element does not receive the
DeterministicScorer's assessment — it receives the `0`/`"Unknown"`
placeholder instead (`parsed[i]?.riskScore || 0`). -/
theorem C5_missing_score_fallback_counterexample :
    (parseOpenAIResponse (some [p0]) [fA, fB]).getLast? ≠ some (mockAssessment fB) := by
  decide

/-- Claim C5, amended: when the parsed oracle array is one element shorter
than the batch, the last subject receives the placeholder `{riskScore := 0,
riskReason := "Unknown"}` (not a DeterministicScorer assessment), while
every other subject receives the oracle-provided score with JavaScript
falsy-defaulting; no subject is dropped. -/
theorem C5_missing_score_zero_filled : ∀ (fl : List TravelerFeatures)
    (arr : List ParsedScore) (f : TravelerFeatures), arr.length = fl.length →
    parseOpenAIResponse (some arr) (fl ++ [f]) =
      List.zipWith
        (fun g p => RiskAssessment.mk g.id (jsOrNat p.riskScore 0)
          (jsOrString p.riskReason "Unknown")) fl arr
        ++ [{ travelerId := f.id, riskScore := 0, riskReason := "Unknown" }] := by
  intro fl
  induction fl with
  | nil =>
    intro arr f h
    have harr : arr = [] := List.eq_nil_of_length_eq_zero (by simpa using h)
    subst harr
    rfl
  | cons g gs ih =>
    intro arr f h
    cases arr with
    | nil => simp at h
    | cons p ps =>
      simp only [List.length_cons] at h
      simp only [parseOpenAIResponse, List.cons_append, parseScores, List.zipWith,
        List.append_eq]
      have hrec := ih ps f (by omega)
      simp only [parseOpenAIResponse] at hrec
      rw [hrec]

/-- Witness for C5's amended theorem at the concrete two-subject batch with
a one-element oracle array. -/
theorem C5_missing_score_zero_filled_witness :
    parseOpenAIResponse (some [p0]) ([fA] ++ [fB]) =
      List.zipWith
        (fun g p => RiskAssessment.mk g.id (jsOrNat p.riskScore 0)
          (jsOrString p.riskReason "Unknown")) [fA] [p0]
        ++ [{ travelerId := fB.id, riskScore := 0, riskReason := "Unknown" }] :=
  C5_missing_score_zero_filled [fA] [p0] fB rfl

/-- Claim C6, counterexample: the deterministic scorer's age factor is not
"the oldest two brackets".  On the `"60-70"` bucket the source adds 30
(the substring test `ageRange.includes('70')` fires), while the spec's
reference scorer adds nothing, so the two disagree: 40 against 10. -/
theorem C6_age_bracket_counterexample :
    (mockAssessment fOld).riskScore ≠ specDeterministicScoreValue fOld := by
  decide

/-- Claim C6, amended: `mockAssessment` equals the reference definition
with the age clause corrected to a substring test — score `min (10 + 30⟦
ageRange contains "70" or "80"⟧ + (40 if more than 3 missing else 15 if any
missing) + 25⟦hint = "high"⟧) 100`, reason the triggered factors joined
after `"Mock: "` or the default low-risk string — answered under the
subject's own id.  (Purity as stated in the claim — identical input gives
identical output — holds because the embedding is a function of the feature
record alone.) -/
theorem C6_mockAssessment_closed_form (f : TravelerFeatures) :
    (mockAssessment f).travelerId = f.id ∧
    (mockAssessment f).riskScore =
      min (10 + (if strContains f.ageRange "70" || strContains f.ageRange "80" then 30 else 0)
        + (if f.missingFieldsCount > 3 then 40
           else if f.missingFieldsCount > 0 then 15 else 0)
        + (if f.nationalityRiskLevel = some "high" then 25 else 0)) 100 ∧
    (mockAssessment f).riskReason =
      (let reasons :=
        (if strContains f.ageRange "70" || strContains f.ageRange "80" then
          ["Senior age group"] else [])
        ++ (if f.missingFieldsCount > 0 then
          [toString f.missingFieldsCount ++ " missing fields"] else [])
        ++ (if f.nationalityRiskLevel = some "high" then
          ["High-risk nationality profile"] else []);
       if reasons.length > 0 then "Mock: " ++ String.intercalate ", " reasons
       else "Mock: Low risk profile") := by
  simp only [mockAssessment]
  split_ifs <;> simp_all

/-- Claim C7: with no oracle credential configured, `scoreBatch` returns
the DeterministicScorer's output for every subject, in input order,
completes without any error path, and leaves the whole system state — the
score cache and in particular the audit ledger — unchanged
(`AIService.assessBatch` holds no reference to the storage layer). -/
theorem C7_no_credential_mock_mode (m : Nat) (oracle : Oracle) (now : Nat)
    (st : SysState) (fl : List TravelerFeatures) :
    scoreBatchCall { apiKey := none, maxBatchSize := m } oracle now st fl
      = (fl.map mockAssessment, st) := by
  rfl

/-- Claim C8: cache round-trip.  After `put(f, s, r)` at time `t0`, a `get`
at any time `t ≥ t0` returns the stored entry while `t - t0 < TTL`, and
behaves as absent once `t - t0 ≥ TTL` (TTL = 24h in milliseconds). -/
theorem C8_cache_roundtrip_ttl (c : Cache) (f r : String) (s t0 t : Nat)
    (_h0 : t0 ≤ t) :
    (t - t0 < cacheTTL →
      getFromCache (cacheSet c f { riskScore := s, riskReason := r, timestamp := t0 }) t f
        = some { riskScore := s, riskReason := r, timestamp := t0 }) ∧
    (cacheTTL ≤ t - t0 →
      getFromCache (cacheSet c f { riskScore := s, riskReason := r, timestamp := t0 }) t f
        = none) := by
  constructor <;> intro h <;> simp [getFromCache, cacheSet, cacheFind, h]

/-- Witness for C8: a fresh entry is returned one millisecond after the
put, and is absent exactly at the TTL boundary. -/
theorem C8_cache_roundtrip_ttl_witness :
    getFromCache (cacheSet [] "f" { riskScore := 50, riskReason := "r", timestamp := 100 })
        101 "f" = some { riskScore := 50, riskReason := "r", timestamp := 100 } ∧
    getFromCache (cacheSet [] "f" { riskScore := 50, riskReason := "r", timestamp := 100 })
        (100 + cacheTTL) "f" = none :=
  ⟨(C8_cache_roundtrip_ttl [] "f" "r" 50 100 101 (by decide)).1 (by decide),
   (C8_cache_roundtrip_ttl [] "f" "r" 50 100 (100 + cacheTTL) (by decide)).2 (by decide)⟩

/-- Claim C9: a risk scan over a group with an empty traveler list fails
with the empty-input error (the 400 `'No travelers to scan'`) and returns
the system state — cache, tables and audit ledger — unchanged; in the
handler this guard precedes the scoring call and the audit append, so no
scoring work happens. -/
theorem C9_empty_scan_rejected_unchanged (cfg : AIConfig) (oracle : Oracle)
    (now : Nat) (cy : Int) (gid eid : String) (st : SysState)
    (hg : (st.groups.find? (fun g => g.id = gid)).isSome)
    (ht : st.travelers.filter (fun t => t.groupId = some gid) = []) :
    riskScanHandler cfg oracle now cy gid eid st
      = (Except.error ScanError.emptyInput, st) := by
  unfold riskScanHandler
  rcases hfind : st.groups.find? (fun g => g.id = gid) with _ | g
  · rw [hfind] at hg; simp at hg
  · rw [hfind]; simp [ht]

/-- Witness for C9: a concrete state with one group and no travelers. -/
theorem C9_empty_scan_rejected_unchanged_witness :
    riskScanHandler c1cfg c1oracle 0 2026 "g" "e" c9state
      = (Except.error ScanError.emptyInput, c9state) :=
  C9_empty_scan_rejected_unchanged c1cfg c1oracle 0 2026 "g" "e" c9state
    (by decide) (by decide)

/-- Claim C10: for every feature record, the deterministic scorer's
`riskScore` lies in `[10, 100]` — never below the base score 10 and in
particular never 0 — so a `riskScore` of 0 in a result can never originate
from the deterministic fallback path. -/
theorem C10_mock_score_bounds (f : TravelerFeatures) :
    10 ≤ (mockAssessment f).riskScore ∧ (mockAssessment f).riskScore ≤ 100 ∧
      (mockAssessment f).riskScore ≠ 0 := by
  simp only [mockAssessment]
  split_ifs <;> simp

end UmrahOps

